import Mathlib

/-!
# Verification of the Logan log-viewer core

Shallow embedding of the `logan` repository (a local developer log viewer:
`logan/server.py` and `logan/client.py`) and proofs about its fan-out
broadcaster, stream sessions, ingest endpoint and client-side capture path.

Server side (`logan/server.py`):

* `LoganServer.__init__` creates `log_queue = Queue()` (history),
  `clients = set()` (live subscriber queues) and a lock.
* `receive_log` (route `POST /api/log`): parses the request body with
  `request.get_json()` (a parse failure is rejected by Flask with a 400
  client error before the handler body runs); on success it puts the parsed
  JSON on `log_queue` and then, for each `client_queue in self.clients`,
  does `client_queue.put(log_data)` inside `try:/except: pass`; finally it
  returns `{'status': 'ok'}, 200`.
* `stream_logs` (route `GET /api/logs/stream`): its generator creates a
  fresh `Queue`, adds it to `self.clients`, then loops doing
  `client_queue.get(timeout=30)`; an event within the timeout yields
  `"data: " + json.dumps(log_data) + "\n\n"`, a timeout yields
  `"data: " + json.dumps({'type': 'heartbeat'}) + "\n\n"`; the `finally`
  block does `self.clients.discard(client_queue)`.

The embedding models Python `Queue` objects by natural-number identifiers
(`SubId`) allocated by a counter, the `clients` set by a duplicate-free list
of identifiers consulted through membership, and each queue's contents by
the full ordered list of values ever put into it (sufficient for the
delivery/ordering claims, which quantify over what was enqueued).
Python-level faults of `client_queue.put` (caught by the bare `except`) are
modelled by an explicit `faulty` environment saying which puts raise.
-/

/-- JSON values as produced by Python's `json` module for the payloads this
program exchanges (log entries are dicts of strings, ints, lists, dicts,
`None`). -/
inductive Json where
  | null : Json
  | bool : Bool → Json
  | num : Int → Json
  | str : String → Json
  | arr : List Json → Json
  | obj : List (String × Json) → Json

/-- Escaping of one character inside a JSON string literal, as Python's
`json.dumps` does for the characters that occur in this program's payloads. -/
def escapeChar (c : Char) : String :=
  if c = '"' then "\\\""
  else if c = '\\' then "\\\\"
  else if c = '\n' then "\\n"
  else if c = '\t' then "\\t"
  else if c = '\r' then "\\r"
  else String.singleton c

/-- JSON string-literal escaping (`json.dumps` on a `str`). -/
def escapeString (s : String) : String :=
  String.join (s.toList.map escapeChar)

mutual

/-- Model of Python `json.dumps` with its default separators
(`", "` between items, `": "` after keys). -/
def dumps : Json → String
  | Json.null => "null"
  | Json.bool true => "true"
  | Json.bool false => "false"
  | Json.num n => toString n
  | Json.str s => "\"" ++ escapeString s ++ "\""
  | Json.arr xs => "[" ++ dumpsArr xs ++ "]"
  | Json.obj fs => "\x7b" ++ dumpsObj fs ++ "\x7d"

/-- Comma-separated serialization of array elements. -/
def dumpsArr : List Json → String
  | [] => ""
  | [x] => dumps x
  | x :: y :: rest => dumps x ++ ", " ++ dumpsArr (y :: rest)

/-- Comma-separated serialization of object entries. -/
def dumpsObj : List (String × Json) → String
  | [] => ""
  | [kv] => "\"" ++ escapeString kv.1 ++ "\": " ++ dumps kv.2
  | kv :: kv2 :: rest =>
      "\"" ++ escapeString kv.1 ++ "\": " ++ dumps kv.2 ++ ", " ++ dumpsObj (kv2 :: rest)

end

/-- Does a JSON value have key `k` at top level (it is an object with that
key)?  Used to state what a "required field" of a log event would be; the
server itself never checks this. -/
def hasKey (j : Json) (k : String) : Bool :=
  match j with
  | Json.obj fs => fs.any (fun kv => kv.1 = k)
  | _ => false

/-- Top-level field lookup in a JSON object. -/
def jsonLookup (j : Json) (k : String) : Option Json :=
  match j with
  | Json.obj fs => (fs.find? (fun kv => kv.1 = k)).map Prod.snd
  | _ => none

/-- Identifier of one subscriber queue (one `Queue` object added to
`self.clients` by `stream_logs`). -/
abbrev SubId := Nat

/-- The mutable state of one `LoganServer`:
`log_queue` (history of ingested events, never consumed), the `clients`
set of live subscriber queues, the contents ever enqueued into each
subscriber queue, and the allocator for fresh queue identities. -/
structure ServerState where
  logQueue : List Json
  clients : List SubId
  inboxes : SubId → List Json
  nextId : SubId

/-- Model of `LoganServer.__init__`: empty history, no clients, no queue has ever
received anything. -/
def initServer : ServerState :=
  { logQueue := [], clients := [], inboxes := fun _ => [], nextId := 0 }

/-- The body of a `POST /api/log` request as seen by `request.get_json()`:
either it fails to parse as JSON (Flask then aborts with a 400 client
error) or it is some JSON value. -/
inductive Body where
  | malformed : Body
  | json : Json → Body

/-- The fan-out sweep inside `receive_log` (under `self.lock`):
`self.log_queue.put(log_data)` followed by
`for client_queue in self.clients: try: client_queue.put(log_data) except: pass`.
`faulty q = true` models `q.put` raising; the bare `except: pass` skips that
subscriber and continues with the others. -/
def publish (faulty : SubId → Bool) (e : Json) (s : ServerState) : ServerState :=
  { s with
    logQueue := s.logQueue ++ [e],
    inboxes := fun h =>
      if h ∈ s.clients ∧ faulty h = false then s.inboxes h ++ [e] else s.inboxes h }

/-- The `receive_log` handler: parse the body (`request.get_json()`; a parse
failure is a 400 client error and the handler body never runs), publish the
parsed value, and respond `{'status': 'ok'}, 200`.  The result is the new
server state, the HTTP status code, and the response body. -/
def receiveLog (faulty : SubId → Bool) (body : Body) (s : ServerState) :
    ServerState × Nat × Json :=
  match body with
  | Body.malformed => (s, 400, Json.null)
  | Body.json j => (publish faulty j s, 200, Json.obj [("status", Json.str "ok")])

/-- Registration at the top of `stream_logs`'s generator:
`client_queue = Queue()` (a fresh queue object, here a fresh identifier) and
`self.clients.add(client_queue)` (under `self.lock`).  Returns the new state
and the handle of the new subscriber. -/
def registerClient (s : ServerState) : ServerState × SubId :=
  ({ s with clients := s.clients ++ [s.nextId], nextId := s.nextId + 1 }, s.nextId)

/-- The `finally` block of `stream_logs`'s generator:
`self.clients.discard(client_queue)` (under `self.lock`).  `set.discard`
removes the element if present and is a no-op otherwise. -/
def unregisterClient (h : SubId) (s : ServerState) : ServerState :=
  { s with clients := s.clients.filter (fun c => c ≠ h) }

/-- One interaction with the running server: an ingest `POST` carrying a
well-formed JSON body, a new stream connection opening, or a stream
connection closing (its cleanup runs). -/
inductive Op where
  | ingest : Json → Op
  | register : Op
  | unregister : SubId → Op

/-- Effect of one interaction on the server state, in normal operation
(no `client_queue.put` raises). -/
def stepOp (s : ServerState) (op : Op) : ServerState :=
  match op with
  | Op.ingest e => (receiveLog (fun _ => false) (Body.json e) s).1
  | Op.register => (registerClient s).1
  | Op.unregister h => unregisterClient h s

/-- Run a sequence of interactions against the server. -/
def runOps (ops : List Op) (s : ServerState) : ServerState :=
  ops.foldl stepOp s

/-- Specification-side description of one subscriber's inbox, written from
the spec's fan-out invariant: the events published while the subscriber is
in the live set, in publish order, each exactly once.  It tracks only the
membership evolution (`cs` = live set, `n` = next fresh handle) and collects
each published event at most once for the observed handle `h`. -/
def specInbox (ops : List Op) (cs : List SubId) (n : SubId) (h : SubId) : List Json :=
  match ops with
  | [] => []
  | Op.ingest e :: rest =>
      (if h ∈ cs then [e] else []) ++ specInbox rest cs n h
  | Op.register :: rest => specInbox rest (cs ++ [n]) (n + 1) h
  | Op.unregister k :: rest => specInbox rest (cs.filter (fun c => c ≠ k)) n h

/-- Specification-side live set after a sequence of interactions. -/
def specClients (ops : List Op) (cs : List SubId) (n : SubId) : List SubId :=
  match ops with
  | [] => cs
  | Op.ingest _ :: rest => specClients rest cs n
  | Op.register :: rest => specClients rest (cs ++ [n]) (n + 1)
  | Op.unregister k :: rest => specClients rest (cs.filter (fun c => c ≠ k)) n

/-- Specification-side fresh-handle counter after a sequence of interactions. -/
def specNext (ops : List Op) (n : SubId) : SubId :=
  match ops with
  | [] => n
  | Op.ingest _ :: rest => specNext rest n
  | Op.register :: rest => specNext rest (n + 1)
  | Op.unregister _ :: rest => specNext rest n

/-!
## StreamSession serve loop

One iteration of `stream_logs`'s generator loop: `client_queue.get(timeout=30)`
either yields the next inbox event within the timeout (`some e`) or times out
(`none`), upon which a heartbeat is sent.
-/

/-- The heartbeat payload `{'type': 'heartbeat'}` built inside `stream_logs`. -/
def heartbeatJson : Json :=
  Json.obj [("type", Json.str "heartbeat")]

/-- The frame emitted by one iteration of the serve loop: the formatted
string `"data: " + json.dumps(...) + "\n\n"`, applied to the dequeued event
if one arrived within the 30-second timeout, and to the heartbeat payload
otherwise. -/
def streamFrame (next : Option Json) : String :=
  match next with
  | some logData => "data: " ++ dumps logData ++ "\n\n"
  | none => "data: " ++ dumps heartbeatJson ++ "\n\n"

/-!
## Client side (`logan/client.py`)

The `Logan` class keeps class-level state `_server`, `_server_url`, `_port`,
`_logging_handler`.  A running `LoganServer` is modelled by the port it was
constructed with; a logging handler object by an opaque numeric identity.
Socket probing (`_is_port_available`) is modelled by an environment
`avail : Nat → Bool` saying which ports the OS would let us bind.
-/

/-- The class-level state of `Logan`. -/
structure ClientState where
  server : Option Nat
  serverUrl : Option String
  port : Option Nat
  loggingHandler : Option Nat
deriving DecidableEq, Repr

/-- State before any `init`: all four class attributes are `None`. -/
def initialClient : ClientState :=
  { server := none, serverUrl := none, port := none, loggingHandler := none }

/-- The `RuntimeError` message raised by `_find_available_port`; the source
interpolates the original `max_attempts` and `start_port` arguments. -/
def portErrorMsg (startPort maxAttempts : Nat) : String :=
  "Could not find an available port after trying " ++ toString maxAttempts
    ++ " ports starting from " ++ toString startPort

/-- Model of `Logan._find_available_port(start_port, max_attempts)`:
`for i in range(max_attempts)` probe `port = start_port + i` with
`_is_port_available` and return the first port reported available; when the
loop exhausts all attempts, raise a `RuntimeError`. -/
def findAvailablePort (avail : Nat → Bool) (startPort maxAttempts : Nat) :
    Except String Nat :=
  match (List.range maxAttempts).find? (fun i => avail (startPort + i)) with
  | some i => Except.ok (startPort + i)
  | none => Except.error (portErrorMsg startPort maxAttempts)

/-- Model of `Logan.init(max_port_attempts, logging_handler, no_server)`.
Faithfully in source order: it first stores `logging_handler` into
`cls._logging_handler`; returns if `no_server`; returns (printing
"Logan server is already running") if `cls._server is not None`; otherwise
acquires a port (a `RuntimeError` from `_find_available_port` propagates to
the caller with the class state as mutated so far) and then creates and runs
the server and stores `_port` and `_server_url`.  The result is the class
state after the call together with the raised error message, if any. -/
def init (avail : Nat → Bool) (maxPortAttempts : Nat)
    (loggingHandler : Option Nat) (noServer : Bool) (s : ClientState) :
    ClientState × Option String :=
  let s1 := { s with loggingHandler := loggingHandler }
  if noServer then (s1, none)
  else if s1.server.isSome then (s1, none)
  else
    match findAvailablePort avail 5000 maxPortAttempts with
    | Except.error msg => (s1, some msg)
    | Except.ok port =>
        ({ s1 with
            server := some port,
            port := some port,
            serverUrl := some ("http://localhost:" ++ toString port) }, none)

/-- One Python stack frame as seen by `inspect`: `f_code.co_filename`,
`f_lineno`, `f_code.co_name`. -/
structure PyFrame where
  file : String
  line : Nat
  function : String
deriving DecidableEq, Repr

/-- The JSON record `_log` appends to the callstack for one kept frame. -/
def frameJson (f : PyFrame) : Json :=
  Json.obj [("file", Json.str f.file), ("line", Json.num (Int.ofNat f.line)),
            ("function", Json.str f.function)]

/-- The callstack walk in `Logan._log`: starting from the current frame and
following `f_back` (the chain is the input list, innermost frame first),
append `{"file", "line", "function"}` for every frame whose
`f_code.co_filename` differs from the library's own `__file__` (`selfFile`),
and skip the library's own frames. -/
def walkFrames (selfFile : String) : List PyFrame → List Json
  | [] => []
  | f :: rest =>
      if f.file ≠ selfFile then frameJson f :: walkFrames selfFile rest
      else walkFrames selfFile rest

/-- A Python exception as `_log`/`_log_to_console` consume it: `str(e)` and
the lines `traceback.format_exception(...)` would produce (empty when the
exception has no traceback). -/
structure ExcInfo where
  message : String
  tbLines : List String
deriving DecidableEq, Repr

/-- The `exception` field of the log entry: `None`, or
`{"message": str(e), "traceback": format_exception(...)}`. -/
def excJson (exc : Option ExcInfo) : Json :=
  match exc with
  | none => Json.null
  | some e =>
      Json.obj [("message", Json.str e.message),
                ("traceback", Json.arr (e.tbLines.map Json.str))]

/-- ANSI color selected by `_log_to_console` (`colors.get(type, colors["info"])`). -/
def colorFor (typ : String) : String :=
  if typ = "info" then "\x1b[94m"
  else if typ = "warning" then "\x1b[93m"
  else if typ = "error" then "\x1b[91m"
  else if typ = "debug" then "\x1b[90m"
  else "\x1b[94m"

/-- Symbol selected by `_log_to_console` (`symbols.get(type, symbols["info"])`). -/
def symbolFor (typ : String) : String :=
  if typ = "info" then "ℹ"
  else if typ = "warning" then "⚠"
  else if typ = "error" then "✗"
  else if typ = "debug" then "○"
  else "ℹ"

/-- The head of the console log line built by `_log_to_console` before the
message is appended: `f"{dim}{timestamp}{reset} {color}{bold}{symbol} {TYPE}{reset}"`
plus the `[namespace]` tag when the namespace is not `"global"`. -/
def consoleLineHead (typ ns timestamp : String) : String :=
  let reset := "\x1b[0m"
  let bold := "\x1b[1m"
  let dim := "\x1b[2m"
  let base := dim ++ timestamp ++ reset ++ " " ++ colorFor typ ++ bold
    ++ symbolFor typ ++ " " ++ typ.toUpper ++ reset
  if ns ≠ "global" then base ++ " " ++ dim ++ "[" ++ ns ++ "]" ++ reset
  else base

/-- Model of `Logan._log_to_console(message, type, namespace, exception)`: the list of
lines printed, in order — the formatted log line ending in the message, then,
when an exception was passed, the `└─ Exception:` line and the indented,
right-stripped traceback lines with the first line dropped. -/
def logToConsole (message typ ns : String) (exc : Option ExcInfo)
    (timestamp : String) : List String :=
  let reset := "\x1b[0m"
  let dim := "\x1b[2m"
  let logLine := consoleLineHead typ ns timestamp ++ " " ++ message
  logLine :: (match exc with
    | none => []
    | some e =>
        (colorFor typ ++ "  └─ Exception: " ++ e.message ++ reset)
          :: (e.tbLines.drop 1).map (fun l => dim ++ "     " ++ l.trimRight ++ reset))

/-- What one `Logan._log` call did: the lines it printed to the local console
and the JSON body of the HTTP POST it made to the server, if it made one. -/
structure LogOutcome where
  console : List String
  request : Option Json

/-- Model of `Logan._log(message, type, namespace, exception)`.  When `cls._server is
None` it renders to the console via `_log_to_console` and returns without
touching the network.  Otherwise it walks the caller's frames (the chain
starting at `_log`'s own frame is `stack`), builds the `log_entry` dict, and
POSTs it to `f"{cls._server_url}/api/log"` (the routing to an optional
standard-logging handler, excluded from the spec's scope, is not modelled;
errors of the POST itself are swallowed and do not change the outcome). -/
def logMessage (selfFile : String) (s : ClientState) (message typ ns : String)
    (exc : Option ExcInfo) (stack : List PyFrame) (timestamp : String) :
    LogOutcome :=
  if s.server = none then
    { console := logToConsole message typ ns exc timestamp, request := none }
  else
    let callstack := walkFrames selfFile stack
    let entry := Json.obj
      [("timestamp", Json.str timestamp),
       ("type", Json.str typ),
       ("message", Json.str message),
       ("namespace", Json.str ns),
       ("callstack", Json.arr callstack),
       ("exception", excJson exc)]
    { console := [], request := some entry }

/-- A client state in which a server is already running on port 5000, as
after a successful `init` (used to exercise a second `init` call). -/
def runningClient : ClientState :=
  { server := some 5000, serverUrl := some "http://localhost:5000",
    port := some 5000, loggingHandler := none }

/-!
## Lemmas about the broadcaster
-/

theorem runOps_nil (s : ServerState) : runOps [] s = s := rfl

theorem runOps_cons (op : Op) (ops : List Op) (s : ServerState) :
    runOps (op :: ops) s = runOps ops (stepOp s op) := rfl

theorem runOps_append (a b : List Op) (s : ServerState) :
    runOps (a ++ b) s = runOps b (runOps a s) := by
  simp [runOps, List.foldl_append]

/-- The implementation's live set follows the specification's membership
evolution. -/
theorem runOps_clients (ops : List Op) (s : ServerState) :
    (runOps ops s).clients = specClients ops s.clients s.nextId := by
  induction ops generalizing s with
  | nil => rfl
  | cons op rest ih =>
      cases op with
      | ingest e =>
          rw [runOps_cons]
          exact ih _
      | register =>
          rw [runOps_cons]
          exact ih _
      | unregister k =>
          rw [runOps_cons]
          exact ih _

/-- The implementation's fresh-handle counter follows the specification's. -/
theorem runOps_nextId (ops : List Op) (s : ServerState) :
    (runOps ops s).nextId = specNext ops s.nextId := by
  induction ops generalizing s with
  | nil => rfl
  | cons op rest ih =>
      cases op with
      | ingest e =>
          rw [runOps_cons]
          exact ih _
      | register =>
          rw [runOps_cons]
          exact ih _
      | unregister k =>
          rw [runOps_cons]
          exact ih _

/-- Core refinement: after any interaction sequence, each subscriber queue's
contents are its previous contents followed by exactly the events the
specification says were published while that subscriber was live, in publish
order. -/
theorem runOps_inboxes (ops : List Op) (s : ServerState) (h : SubId) :
    (runOps ops s).inboxes h = s.inboxes h ++ specInbox ops s.clients s.nextId h := by
  induction ops generalizing s with
  | nil => simp [runOps_nil, specInbox]
  | cons op rest ih =>
      cases op with
      | ingest e =>
          rw [runOps_cons, ih]
          by_cases hm : h ∈ s.clients <;>
            simp [stepOp, receiveLog, publish, specInbox, hm, List.append_assoc]
      | register =>
          rw [runOps_cons, ih]
          simp [stepOp, registerClient, specInbox]
      | unregister k =>
          rw [runOps_cons, ih]
          simp [stepOp, unregisterClient, specInbox]

/-- The specification's inbox description splits over concatenated traces. -/
theorem specInbox_append (a b : List Op) (cs : List SubId) (n h : SubId) :
    specInbox (a ++ b) cs n h
      = specInbox a cs n h ++ specInbox b (specClients a cs n) (specNext a n) h := by
  induction a generalizing cs n with
  | nil => simp [specInbox, specClients, specNext]
  | cons op rest ih =>
      cases op with
      | ingest e => simp [specInbox, specClients, specNext, ih, List.append_assoc]
      | register => simp [specInbox, specClients, specNext, ih]
      | unregister k => simp [specInbox, specClients, specNext, ih]

/-- Fresh-handle counters never decrease along a trace. -/
theorem specNext_le (ops : List Op) (n : SubId) : n ≤ specNext ops n := by
  induction ops generalizing n with
  | nil => exact Nat.le_refl n
  | cons op rest ih =>
      cases op with
      | ingest e => exact ih n
      | register => exact Nat.le_trans (Nat.le_succ n) (ih (n + 1))
      | unregister k => exact ih n

/-- Every live handle is below the fresh-handle counter, and stays so. -/
theorem specClients_lt (ops : List Op) (cs : List SubId) (n : SubId)
    (hwf : ∀ c ∈ cs, c < n) :
    ∀ c ∈ specClients ops cs n, c < specNext ops n := by
  induction ops generalizing cs n with
  | nil => simpa [specClients, specNext] using hwf
  | cons op rest ih =>
      cases op with
      | ingest e => exact ih cs n hwf
      | register =>
          refine ih (cs ++ [n]) (n + 1) ?_
          intro c hc
          rcases List.mem_append.mp hc with hc | hc
          · exact Nat.lt_trans (hwf c hc) (Nat.lt_succ_self n)
          · have hcn : c = n := by simpa using hc
            exact hcn ▸ Nat.lt_succ_self n
      | unregister k =>
          refine ih _ n ?_
          intro c hc
          exact hwf c (List.mem_of_mem_filter hc)

/-- A handle at or above every counter value reached along a trace was never
live during it, so the specification assigns it no events from that trace. -/
theorem specInbox_eq_nil (ops : List Op) (cs : List SubId) (n h : SubId)
    (hwf : ∀ c ∈ cs, c < n) (hh : specNext ops n ≤ h) :
    specInbox ops cs n h = [] := by
  induction ops generalizing cs n with
  | nil => rfl
  | cons op rest ih =>
      cases op with
      | ingest e =>
          have hnotin : h ∉ cs := by
            intro hmem
            have h1 : h < n := hwf h hmem
            have h2 : n ≤ specNext rest n := specNext_le rest n
            have h4 : specNext rest n ≤ h := hh
            exact Nat.lt_irrefl h (Nat.lt_of_lt_of_le h1 (Nat.le_trans h2 h4))
          simp [specInbox, hnotin]
          exact ih cs n hwf (by simpa [specNext] using hh)
      | register =>
          refine ih (cs ++ [n]) (n + 1) ?_ (by simpa [specNext] using hh)
          intro c hc
          rcases List.mem_append.mp hc with hc | hc
          · exact Nat.lt_trans (hwf c hc) (Nat.lt_succ_self n)
          · have hcn : c = n := by simpa using hc
            exact hcn ▸ Nat.lt_succ_self n
      | unregister k =>
          refine ih _ n ?_ (by simpa [specNext] using hh)
          intro c hc
          exact hwf c (List.mem_of_mem_filter hc)

/-- Every event the specification places in an inbox was ingested in that
trace. -/
theorem specInbox_mem_ingest (ops : List Op) (cs : List SubId) (n h : SubId)
    (e : Json) (he : e ∈ specInbox ops cs n h) : Op.ingest e ∈ ops := by
  induction ops generalizing cs n with
  | nil => simp [specInbox] at he
  | cons op rest ih =>
      cases op with
      | ingest e0 =>
          rw [specInbox] at he
          rcases List.mem_append.mp he with he | he
          · by_cases hm : h ∈ cs
            · simp [hm] at he
              subst he
              exact List.mem_cons_self _ _
            · simp [hm] at he
          · exact List.mem_cons_of_mem _ (ih cs n he)
      | register =>
          rw [specInbox] at he
          exact List.mem_cons_of_mem _ (ih _ _ he)
      | unregister k =>
          rw [specInbox] at he
          exact List.mem_cons_of_mem _ (ih _ _ he)

/-!
## Claim theorems: broadcaster and ingest endpoint
-/

/-- C1: for every sequence of interactions accepted by the server (ingests of
parsed events, stream registrations, stream teardowns) and every subscriber
queue, the queue's contents are exactly the events published while that
subscriber was in the live set — each such event enqueued exactly once, in
ingestion order (`specInbox` is the specification-side description written
from the spec's fan-out invariant). -/
theorem fanout_exactly_once_in_order (ops : List Op) (h : SubId) :
    (runOps ops initServer).inboxes h = specInbox ops [] 0 h := by
  simpa [initServer] using runOps_inboxes ops initServer h

/-- C2 counterexample: a `POST /api/log` body that is valid JSON but has no
`message` field (here ` \x7b"foo": "bar"\x7d `) is *not* rejected: the server
responds 200 and the event is fanned out to the live subscriber.
`receive_log` performs no field validation, so the claim's "missing a
required field such as message" case fails. -/
theorem ingest_missing_field_accepted :
    hasKey (Json.obj [("foo", Json.str "bar")]) "message" = false
    ∧ (receiveLog (fun _ => false) (Body.json (Json.obj [("foo", Json.str "bar")]))
        (registerClient initServer).1).2.1 = 200
    ∧ (receiveLog (fun _ => false) (Body.json (Json.obj [("foo", Json.str "bar")]))
        (registerClient initServer).1).1.inboxes 0
      = [Json.obj [("foo", Json.str "bar")]] :=
  ⟨rfl, rfl, rfl⟩

/-- C2 (amended): for every `POST /api/log` whose body fails to parse as
JSON, the response is a client error (400) and no event is published — the
server state, and hence every subscriber's inbox, is unchanged.  (Bodies
that parse as JSON are accepted and published even when fields such as
`message` are missing: the handler does not validate fields.) -/
theorem ingest_malformed_rejected (faulty : SubId → Bool) (s : ServerState) :
    (receiveLog faulty Body.malformed s).1 = s
    ∧ (receiveLog faulty Body.malformed s).2.1 = 400 :=
  ⟨rfl, rfl⟩

/-- C3: when the enqueue into one live subscriber's queue raises (`faulty a`),
the `try/except: pass` around each `client_queue.put` makes `receive_log`
skip it and continue: every other live non-faulty subscriber still receives
the event, the faulty subscriber is merely skipped, and the ingest call still
responds 200 (the publish path is total — no exception escapes). -/
theorem publish_fault_isolation (s : ServerState) (faulty : SubId → Bool)
    (e : Json) (a b : SubId) (_ha : a ∈ s.clients) (hfa : faulty a = true)
    (hb : b ∈ s.clients) (hfb : faulty b = false) :
    (receiveLog faulty (Body.json e) s).1.inboxes b = s.inboxes b ++ [e]
    ∧ (receiveLog faulty (Body.json e) s).1.inboxes a = s.inboxes a
    ∧ (receiveLog faulty (Body.json e) s).2.1 = 200 := by
  refine ⟨?_, ?_, rfl⟩
  · simp [receiveLog, publish, hb, hfb]
  · simp [receiveLog, publish, hfa]

/-- C3 witness: with two live subscribers 0 and 1 where the put into queue 0
raises, subscriber 1 still receives the event, 0 is skipped, and the
response is 200. -/
theorem publish_fault_isolation_witness :
    (receiveLog (fun i => decide (i = 0)) (Body.json (Json.str "x"))
        (runOps [Op.register, Op.register] initServer)).1.inboxes 1
      = (runOps [Op.register, Op.register] initServer).inboxes 1 ++ [Json.str "x"]
    ∧ (receiveLog (fun i => decide (i = 0)) (Body.json (Json.str "x"))
        (runOps [Op.register, Op.register] initServer)).1.inboxes 0
      = (runOps [Op.register, Op.register] initServer).inboxes 0
    ∧ (receiveLog (fun i => decide (i = 0)) (Body.json (Json.str "x"))
        (runOps [Op.register, Op.register] initServer)).2.1 = 200 :=
  publish_fault_isolation (runOps [Op.register, Op.register] initServer)
    (fun i => decide (i = 0)) (Json.str "x") 0 1
    (by decide) (by decide) (by decide) (by decide)

/-- C4: a subscriber that registers after a trace `ops₁` (its handle is the
one `stream_logs` allocates at that point) starts with an empty inbox, and
after any further trace `ops₂` its inbox holds only events ingested in
`ops₂`: it never receives an event published before its registration, and
nothing is replayed to it from the `log_queue` history (which no stream
ever reads). -/
theorem no_replay_for_late_subscriber (ops₁ ops₂ : List Op) :
    ((runOps (ops₁ ++ [Op.register]) initServer).inboxes
        ((registerClient (runOps ops₁ initServer)).2) = [])
    ∧ (∀ e, e ∈ (runOps (ops₁ ++ Op.register :: ops₂) initServer).inboxes
          ((registerClient (runOps ops₁ initServer)).2) → Op.ingest e ∈ ops₂) := by
  have h0eq : (registerClient (runOps ops₁ initServer)).2 = specNext ops₁ 0 := by
    simpa [registerClient, initServer] using runOps_nextId ops₁ initServer
  have e1 : initServer.clients = [] := rfl
  have e2 : initServer.nextId = 0 := rfl
  constructor
  · rw [h0eq, runOps_inboxes, specInbox_append, e1, e2,
        specInbox_eq_nil ops₁ [] 0 (specNext ops₁ 0) (by simp) (Nat.le_refl _)]
    simp [initServer, specInbox]
  · intro e he
    rw [h0eq, runOps_inboxes, specInbox_append, e1, e2,
        specInbox_eq_nil ops₁ [] 0 (specNext ops₁ 0) (by simp) (Nat.le_refl _)] at he
    simp [initServer, specInbox] at he
    exact specInbox_mem_ingest _ _ _ _ _ he

/-- C4 witness: one event is ingested, then a subscriber registers (handle 0)
with an empty inbox; after a further ingest its inbox holds only that later
event, and applying the theorem to it shows it was ingested after
registration. -/
theorem no_replay_witness :
    ((runOps ([Op.ingest (Json.str "old")] ++ [Op.register]) initServer).inboxes
        ((registerClient (runOps [Op.ingest (Json.str "old")] initServer)).2) = [])
    ∧ Op.ingest (Json.str "new") ∈ ([Op.ingest (Json.str "new")] : List Op) :=
  ⟨(no_replay_for_late_subscriber [Op.ingest (Json.str "old")]
      [Op.ingest (Json.str "new")]).1,
   (no_replay_for_late_subscriber [Op.ingest (Json.str "old")]
      [Op.ingest (Json.str "new")]).2 (Json.str "new")
      (by show Json.str "new" ∈ [Json.str "new"]; exact List.mem_singleton.mpr rfl)⟩

/-- C5: after the `finally` cleanup removes a handle, a subsequent publish
does not enqueue into that handle's queue; the removal is idempotent
(`set.discard` twice equals once); and removing a handle that is not live is
a complete no-op on the server state. -/
theorem unregister_clean_idempotent (s : ServerState) (h : SubId)
    (faulty : SubId → Bool) (e : Json) :
    (receiveLog faulty (Body.json e) (unregisterClient h s)).1.inboxes h
        = s.inboxes h
    ∧ unregisterClient h (unregisterClient h s) = unregisterClient h s
    ∧ (h ∉ s.clients → unregisterClient h s = s) := by
  refine ⟨?_, ?_, ?_⟩
  · simp [receiveLog, publish, unregisterClient, List.mem_filter]
  · cases s with
    | mk lq cs ib ni =>
        simp only [unregisterClient]
        congr 1
        exact List.filter_eq_self.mpr fun a ha => (List.mem_filter.mp ha).2
  · intro hnot
    cases s with
    | mk lq cs ib ni =>
        simp only [unregisterClient]
        congr 1
        exact List.filter_eq_self.mpr fun a ha =>
          decide_eq_true fun hah => hnot (hah ▸ ha)

/-- C5 witness: with live set `[0]`, unregistering handle 2 twice is the
same as once, publishing afterwards leaves queue 2 untouched, and the
unregistration of the never-registered handle 2 changes nothing. -/
theorem unregister_clean_idempotent_witness :
    (receiveLog (fun _ => false) (Body.json Json.null)
        (unregisterClient 2 (registerClient initServer).1)).1.inboxes 2
      = (registerClient initServer).1.inboxes 2
    ∧ unregisterClient 2 (unregisterClient 2 (registerClient initServer).1)
      = unregisterClient 2 (registerClient initServer).1
    ∧ unregisterClient 2 (registerClient initServer).1
      = (registerClient initServer).1 := by
  have h := unregister_clean_idempotent (registerClient initServer).1 2
    (fun _ => false) Json.null
  exact ⟨h.1, h.2.1, h.2.2 (by decide)⟩

/-!
## Claim theorems: stream session, port acquisition, client capture path
-/

/-- C6: every frame emitted by one iteration of the serve loop is
`data: <json>` followed by a double newline, where the JSON is the
serialization of the dequeued inbox event when one arrives within the
30-second timeout, and is exactly the heartbeat payload
` \x7b"type": "heartbeat"\x7d ` (as `json.dumps` renders it) when the
timeout elapses with nothing pending. -/
theorem stream_frame_format :
    (∀ j, streamFrame (some j) = "data: " ++ dumps j ++ "\n\n")
    ∧ streamFrame none = "data: \x7b\"type\": \"heartbeat\"\x7d\n\n" :=
  ⟨fun _ => rfl, rfl⟩

/-- Leastness of `find?` over an initial segment of the naturals: when it
returns an index, that index satisfies the predicate, lies in the range, and
everything before it fails the predicate. -/
theorem find?_range_least (p : Nat → Bool) (m i : Nat)
    (h : (List.range m).find? p = some i) :
    p i = true ∧ i < m ∧ ∀ j < i, p j = false := by
  induction m with
  | zero => simp [List.range_zero] at h
  | succ k ih =>
      rw [List.range_succ, List.find?_append] at h
      cases hk : (List.range k).find? p with
      | some a =>
          rw [hk] at h
          simp only [Option.or_some, Option.some.injEq] at h
          subst h
          obtain ⟨h1, h2, h3⟩ := ih hk
          exact ⟨h1, Nat.lt_succ_of_lt h2, h3⟩
      | none =>
          rw [hk] at h
          simp only [Option.none_or] at h
          have hall : ∀ x ∈ List.range k, ¬p x = true := List.find?_eq_none.mp hk
          by_cases hpk : p k = true
          · rw [List.find?_cons_of_pos _ hpk] at h
            obtain rfl : k = i := Option.some.inj h
            refine ⟨hpk, Nat.lt_succ_self _, ?_⟩
            intro j hj
            exact Bool.eq_false_iff.mpr (hall j (List.mem_range.mpr hj))
          · rw [List.find?_cons_of_neg _ hpk] at h
            simp at h

/-- C7: port acquisition fails exactly when none of the `m` probed ports
`5000, 5001, ...` is available (the `RuntimeError` message interpolates the
original arguments); when it succeeds it returns the first available port in
ascending probe order; and when it fails inside `init` the error is
surfaced to `init`'s caller and no server is started (`_server` stays
`None`). -/
theorem port_acquisition_iff (avail : Nat → Bool) (m : Nat) :
    (findAvailablePort avail 5000 m = Except.error (portErrorMsg 5000 m)
      ↔ ∀ i < m, avail (5000 + i) = false)
    ∧ (∀ p, findAvailablePort avail 5000 m = Except.ok p →
        avail p = true ∧ ∃ i, i < m ∧ p = 5000 + i
          ∧ ∀ j < i, avail (5000 + j) = false)
    ∧ (∀ (s : ClientState) (lh : Option Nat), s.server = none →
        (∀ i < m, avail (5000 + i) = false) →
        (init avail m lh false s).2 = some (portErrorMsg 5000 m)
          ∧ (init avail m lh false s).1.server = none) := by
  have herr : (∀ i < m, avail (5000 + i) = false) →
      findAvailablePort avail 5000 m = Except.error (portErrorMsg 5000 m) := by
    intro hall
    have hnone : (List.range m).find? (fun i => avail (5000 + i)) = none := by
      refine List.find?_eq_none.mpr ?_
      intro x hx
      exact Bool.eq_false_iff.mp (hall x (List.mem_range.mp hx))
    simp [findAvailablePort, hnone]
  refine ⟨⟨?_, herr⟩, ?_, ?_⟩
  · intro herr2 i him
    cases hfind : (List.range m).find? (fun i => avail (5000 + i)) with
    | some a => simp [findAvailablePort, hfind] at herr2
    | none =>
        have := List.find?_eq_none.mp hfind i (List.mem_range.mpr him)
        exact Bool.eq_false_iff.mpr this
  · intro p hp
    cases hfind : (List.range m).find? (fun i => avail (5000 + i)) with
    | some a =>
        rw [findAvailablePort, hfind] at hp
        cases hp
        obtain ⟨h1, h2, h3⟩ := find?_range_least _ m a hfind
        exact ⟨h1, a, h2, rfl, h3⟩
    | none => simp [findAvailablePort, hfind] at hp
  · intro s lh hs hall
    constructor
    · simp [init, hs, herr hall]
    · simp [init, hs, herr hall]

/-- C7 witness: with no port available and 3 attempts, `init` on an
uninitialized client surfaces the `RuntimeError` message and leaves
`_server` unset. -/
theorem port_acquisition_witness :
    (init (fun _ => false) 3 none false initialClient).2
      = some (portErrorMsg 5000 3)
    ∧ (init (fun _ => false) 3 none false initialClient).1.server = none :=
  (port_acquisition_iff (fun _ => false) 3).2.2 initialClient none rfl
    (fun _ _ => rfl)

/-- C8: a log call made while `Logan._server is None` makes no HTTP request
and instead renders to the local console: the outcome's console lines are
exactly what `_log_to_console` prints, whose first line ends in the logged
message (the model is a total function, so the call cannot raise). -/
theorem log_without_server_console (selfFile : String) (s : ClientState)
    (message typ ns : String) (exc : Option ExcInfo) (stack : List PyFrame)
    (ts : String) (hs : s.server = none) :
    (logMessage selfFile s message typ ns exc stack ts).request = none
    ∧ (logMessage selfFile s message typ ns exc stack ts).console
        = logToConsole message typ ns exc ts
    ∧ (logMessage selfFile s message typ ns exc stack ts).console.head?
        = some (consoleLineHead typ ns ts ++ " " ++ message) := by
  refine ⟨?_, ?_, ?_⟩ <;> simp [logMessage, hs, logToConsole]

/-- C8 witness: an `error`-severity log on an uninitialized client prints to
the console (first line ending in the message) and performs no POST. -/
theorem log_without_server_console_witness :
    (logMessage "client.py" initialClient "boom" "error" "svc" none []
        "12:00:00").request = none
    ∧ (logMessage "client.py" initialClient "boom" "error" "svc" none []
        "12:00:00").console = logToConsole "boom" "error" "svc" none "12:00:00"
    ∧ (logMessage "client.py" initialClient "boom" "error" "svc" none []
        "12:00:00").console.head?
      = some (consoleLineHead "error" "svc" "12:00:00" ++ " " ++ "boom") :=
  log_without_server_console "client.py" initialClient "boom" "error" "svc"
    none [] "12:00:00" rfl

/-- C9: the callstack walk of `_log` (starting at `_log`'s own frame and
following `f_back`, innermost first) produces exactly the
`(file, line, function)` records of the caller frames in order, with every
frame from the capture library's own source file excluded; and the
`callstack` field of the log entry POSTed after initialization is exactly
that sequence. -/
theorem callstack_innermost_first_excluding_self (selfFile : String)
    (stack : List PyFrame) :
    walkFrames selfFile stack
      = (stack.filter (fun fr => fr.file ≠ selfFile)).map frameJson
    ∧ (∀ (s : ClientState) (message typ ns : String) (exc : Option ExcInfo)
        (ts : String) (p : Nat), s.server = some p →
        ((logMessage selfFile s message typ ns exc stack ts).request.bind
            (fun j => jsonLookup j "callstack"))
          = some (Json.arr
              ((stack.filter (fun fr => fr.file ≠ selfFile)).map frameJson))) := by
  have hwalk : walkFrames selfFile stack
      = (stack.filter (fun fr => fr.file ≠ selfFile)).map frameJson := by
    induction stack with
    | nil => rfl
    | cons f rest ih =>
        by_cases hf : f.file = selfFile <;> simp [walkFrames, hf, ih]
  refine ⟨hwalk, ?_⟩
  intro s message typ ns exc ts p hs
  rw [← hwalk]
  simp [logMessage, hs, jsonLookup, List.find?]

/-- C9 witness: with the server initialized, logging from a two-frame caller
chain below `_log`'s own frame keeps the caller frames in innermost-first
order and drops the library's. -/
theorem callstack_witness :
    walkFrames "client.py"
        [⟨"client.py", 70, "_log"⟩, ⟨"app.py", 10, "work"⟩, ⟨"app.py", 3, "main"⟩]
      = (([⟨"client.py", 70, "_log"⟩, ⟨"app.py", 10, "work"⟩,
            ⟨"app.py", 3, "main"⟩] : List PyFrame).filter
          (fun fr => fr.file ≠ "client.py")).map frameJson
    ∧ ((logMessage "client.py" runningClient "hi" "info" "global" none
          [⟨"client.py", 70, "_log"⟩, ⟨"app.py", 10, "work"⟩,
           ⟨"app.py", 3, "main"⟩] "12:00:00").request.bind
        (fun j => jsonLookup j "callstack"))
      = some (Json.arr
          ((([⟨"client.py", 70, "_log"⟩, ⟨"app.py", 10, "work"⟩,
               ⟨"app.py", 3, "main"⟩] : List PyFrame).filter
              (fun fr => fr.file ≠ "client.py")).map frameJson)) :=
  ⟨(callstack_innermost_first_excluding_self "client.py" _).1,
   (callstack_innermost_first_excluding_self "client.py" _).2 runningClient
     "hi" "info" "global" none "12:00:00" 5000 rfl⟩

/-- C10 counterexample: calling `init` while a server is already running is
*not* a state no-op: `cls._logging_handler = logging_handler` executes before
the already-running guard, so a second `init` with a different handler
changes the stored class state (here from no handler to handler 1). -/
theorem init_overwrites_handler :
    (init (fun _ => true) 100 (some 1) false runningClient).1 ≠ runningClient
    ∧ (init (fun _ => true) 100 (some 1) false runningClient).1.loggingHandler
        = some 1 := by
  exact ⟨by decide, rfl⟩

/-- C10 (amended): calling `init` when a server is already running returns
immediately without starting a second server and without raising, and leaves
the stored server handle, port, and server URL unchanged; it is however not
a complete no-op: it first overwrites the stored logging handler with its
argument (so `init` after a successful `init` is idempotent only when called
with the same handler). -/
theorem init_when_already_running (avail : Nat → Bool) (m : Nat)
    (lh : Option Nat) (s : ClientState) (hs : s.server.isSome = true) :
    init avail m lh false s = ({ s with loggingHandler := lh }, none) := by
  simp [init, hs]

/-- C10 witness: a second `init` on a running client returns at the guard,
changing only the stored logging handler. -/
theorem init_when_already_running_witness :
    init (fun _ => true) 100 (some 1) false runningClient
      = ({ runningClient with loggingHandler := some 1 }, none) :=
  init_when_already_running (fun _ => true) 100 (some 1) runningClient rfl
